import Mathlib

/-!
Verification of the llater debate orchestrator (Go sources: main.go and the
unnamed variant part_000). The current variant is part_000: the test file
main_test.go compiles against its four-argument Generate interface. All
definitions below are shallow embeddings of the functions of part_000 unless
stated otherwise. Wall-clock time and the network transport are inputs of the
model; the generation backend is a parameter (a client function), and every
embedded operation additionally threads the ordered list of generation calls it
issues, so that claims about the number, order and content of Generation Port
calls can be stated.
-/

namespace Llater

/-- Role constants of part_000 lines 17 to 25. -/
def RoleUser : String := "user"

/-- Role constant for system messages. -/
def RoleSystem : String := "system"

/-- Role constant for challenger turns. -/
def RoleChallenger : String := "challenger"

/-- Role constant for defender turns. -/
def RoleDefender : String := "defender"

/-- Role constant for the summarizer. -/
def RoleSummarizer : String := "summarizer"

/-- Maximum number of previous messages to keep, part_000 line 24. -/
def MaxHistory : Nat := 100

/-- Message structure, part_000 lines 27 to 30. -/
structure Message where
  Role : String
  Content : String
deriving DecidableEq

/-- DebateRound structure, part_000 lines 32 to 35. -/
structure DebateRound where
  Challenger : String
  Defender : String
deriving DecidableEq

/-- DebateConfig structure, part_000 lines 37 to 42. Rounds is a Go int
(64 bit signed). -/
structure DebateConfig where
  Rounds : Int
  Duration : String
  InputFile : String
  OutputFile : String

/-- LLMConfig structure, part_000 lines 44 to 49. -/
structure LLMConfig where
  ChallengerModel : String
  DefenderModel : String
  ChalPrompt : String
  DefPrompt : String

/-- One invocation of runSingleRound (the Turn Executor), recorded with the
model, the system instruction, and the context window it was given. -/
structure TurnCall where
  model : String
  system : String
  history : List Message
deriving DecidableEq

/-- The request actually handed to the Generation Port: three string fields,
as in the GenerateRequest of part_000 lines 147 to 151 (model, system and
prompt are separate fields of the request). -/
structure PortCall where
  model : String
  system : String
  prompt : String
deriving DecidableEq

/-- Serialization of a context window, part_000 lines 259 to 262: an
accumulator string extended by one formatted line per message. -/
def serializeHistory (history : List Message) : String :=
  history.foldl (fun acc m => acc ++ (m.Role ++ ": " ++ m.Content ++ "\n")) ""

/-- The port-level request produced from a Turn Executor invocation,
part_000 line 264: the system instruction and the serialized transcript are
passed as two distinct arguments of Generate. -/
def portRequest (c : TurnCall) : PortCall :=
  { model := c.model, system := c.system, prompt := serializeHistory c.history }

/-- A generation backend: given the number of calls issued so far and the
request, it answers with generated text or an error. This models the abstract
LLMClient interface of part_000 lines 52 to 54. -/
def Client : Type := Nat → PortCall → Except String String

/-- trimHistory, part_000 lines 251 to 256: keep the last max messages. The
Go slice expression history[len-max:] is List.drop (len - max). -/
def trimHistory (history : List Message) (max : Nat) : List Message :=
  if history.length ≤ max then history else history.drop (history.length - max)

/-- The per-iteration window view of part_000 lines 212 to 213: trim the
history to max entries, then overwrite index 0 with the seed entry. -/
def debateView (claimEntry : Message) (history : List Message) (max : Nat) :
    List Message :=
  (trimHistory history max).set 0 claimEntry

/-- Building the window view, part_000 lines 212 to 213, together with its
effect on the stored history. Go slices alias their backing array, so the
element assignment on the trimmed slice writes through to the stored history:
at index 0 when no trimming occurred (trimHistory returned the same slice),
and at index len - (MaxHistory + 1) when it did (the trimmed slice starts at
that offset of the backing array). The first component is the view handed to
the Turn Executor, the second is the stored history after the assignment. -/
def buildView (claimEntry : Message) (history : List Message) :
    List Message × List Message :=
  (debateView claimEntry history (MaxHistory + 1),
   if history.length ≤ MaxHistory + 1 then history.set 0 claimEntry
   else history.set (history.length - (MaxHistory + 1)) claimEntry)

/-- Challenger system instruction of part_000 line 217: the role name, a
newline, and the configured challenger prompt. -/
def chalSys (llm : LLMConfig) : String := RoleChallenger ++ "\n" ++ llm.ChalPrompt

/-- Defender system instruction of part_000 line 231. -/
def defSys (llm : LLMConfig) : String := RoleDefender ++ "\n" ++ llm.DefPrompt

/-- runSingleRound, part_000 lines 258 to 265: serialize the context and call
Generate with the model, the instruction as the system field, and the
serialized transcript as the prompt field. The issued call is appended to the
trace. -/
def runSingleRound (client : Client) (st : List TurnCall) (model prompt : String)
    (history : List Message) : Except String String × List TurnCall :=
  let c : TurnCall := { model := model, system := prompt, history := history }
  (client st.length (portRequest c), st ++ [c])

/-- Loop body of runDebateFlow, part_000 lines 211 to 247, by recursion on the
number of remaining iterations. Each iteration builds the window view (with
its aliasing effect on the stored history), runs the challenger, appends the
challenger entry to the view, runs the defender, and extends the stored
history and the round list. Console logging (logDebate) is elided: it carries
no data. Error wrapping matches lines 219 and 233. -/
def runDebateBody (client : Client) (claimEntry : Message) (llm : LLMConfig) :
    Nat → List Message → List DebateRound → List TurnCall →
    Except String (List DebateRound) × List TurnCall
  | 0, _, rounds, st => (Except.ok rounds, st)
  | n + 1, history, rounds, st =>
    let hv := buildView claimEntry history
    let r1 := runSingleRound client st llm.ChallengerModel (chalSys llm) hv.1
    match r1.1 with
    | Except.error e => (Except.error ("running challenger: " ++ e), r1.2)
    | Except.ok chal =>
      let chalEntry : Message := { Role := RoleChallenger, Content := chal }
      let r2 := runSingleRound client r1.2 llm.DefenderModel (defSys llm)
        (hv.1 ++ [chalEntry])
      match r2.1 with
      | Except.error e => (Except.error ("running defender: " ++ e), r2.2)
      | Except.ok defText =>
        let defEntry : Message := { Role := RoleDefender, Content := defText }
        runDebateBody client claimEntry llm n (hv.2 ++ [chalEntry, defEntry])
          (rounds ++ [{ Challenger := chal, Defender := defText }]) r2.2

/-- runDebateFlow, part_000 lines 201 to 249: seed the history with the claim
entry and iterate config.Rounds times (a Go for loop with an int bound runs
max(Rounds, 0) iterations, which is Int.toNat). -/
def runDebateFlow (client : Client) (claim : String) (config : DebateConfig)
    (llm : LLMConfig) : Except String (List DebateRound) × List TurnCall :=
  let claimEntry : Message := { Role := RoleUser, Content := claim }
  runDebateBody client claimEntry llm config.Rounds.toNat [claimEntry] [] []

/-- Fixed summarizer instruction, part_000 line 273. -/
def summaryInstruction : String :=
  "Summarize the debate: top blind spots, opportunities, deadly assumption."

/-- Serialized transcript built by summarizeDebate, part_000 lines 269 to 272:
one formatted block per round, indexed from 1 in iteration order. -/
def summaryText (debate : List DebateRound) : String :=
  debate.enum.foldl
    (fun acc p =>
      acc ++ ("### Round " ++ toString (p.1 + 1) ++ "\nChallenger: " ++
        p.2.Challenger ++ "\nDefender: " ++ p.2.Defender ++ "\n\n")) ""

/-- summarizeDebate, part_000 lines 268 to 274: serialize all rounds and issue
one Turn Executor call whose context is a single system message holding the
transcript. -/
def summarizeDebate (client : Client) (st : List TurnCall)
    (debate : List DebateRound) (model : String) :
    Except String String × List TurnCall :=
  runSingleRound client st model summaryInstruction
    [{ Role := RoleSystem, Content := summaryText debate }]

/-- Default round count applied by runCLI, part_000 lines 114 to 117: when the
configured round count is not positive (and no estimation ran), it becomes
math.MaxInt, the largest 64 bit signed integer. -/
def defaultRounds (rounds : Int) : Int :=
  if rounds ≤ 0 then 9223372036854775807 else rounds

/-- GenerateWithChannel of part_000 lines 141 to 174, the Ollama adapter
behind the Generation Port. The streaming backend is modeled as a function
from the three request fields to either a transport error or the list of
streamed response chunks; the assembled result is their concatenation. The
progress channel is elided: it only drives the progress bar and carries no
data. Empty assembled text is turned into the error empty response. -/
def GenerateWithChannel
    (backend : String → String → String → Except String (List String))
    (model system prompt : String) : Except String String :=
  match backend model system prompt with
  | Except.error e => Except.error e
  | Except.ok chunks =>
    let result := String.join chunks
    if result = "" then Except.error "empty response" else Except.ok result

/-- Unit table of Go time.ParseDuration (stdlib unitMap), in nanoseconds.
Modelled from the Go standard library, which is not part of this repository. -/
def durUnit : String → Option Nat
  | "ns" => some 1
  | "us" => some 1000
  | "µs" => some 1000
  | "μs" => some 1000
  | "ms" => some 1000000
  | "s" => some 1000000000
  | "m" => some 60000000000
  | "h" => some 3600000000000
  | _ => none

/-- Digit scan of Go time.leadingInt with its overflow checks (checked against
2 to the power 63 over 10 before the multiply and 2 to the power 63 after the
add); none models the overflow error. -/
def goLeadingInt : Nat → List Char → Option (Nat × List Char)
  | x, [] => some (x, [])
  | x, c :: rest =>
    if c.isDigit then
      if x > 2 ^ 63 / 10 then none
      else
        let y := x * 10 + (c.toNat - 48)
        if y > 2 ^ 63 then none else goLeadingInt y rest
    else some (x, c :: rest)

/-- Digit scan of Go time.leadingFraction: digits after the decimal point,
with the running scale, silently stopping the accumulation on overflow. -/
def goLeadingFraction : Nat → Nat → Bool → List Char → Nat × Nat × List Char
  | x, scale, _, [] => (x, scale, [])
  | x, scale, overflow, c :: rest =>
    if c.isDigit then
      if overflow then goLeadingFraction x scale true rest
      else if x > (2 ^ 63 - 1) / 10 then goLeadingFraction x scale true rest
      else
        let y := x * 10 + (c.toNat - 48)
        if y > 2 ^ 63 then goLeadingFraction x scale true rest
        else goLeadingFraction y (scale * 10) false rest
    else (x, scale, c :: rest)

/-- One group of the duration grammar, digits then optional fraction then a
unit, returning its value in nanoseconds and the remaining input. Modelled
from the body of the main loop of Go time.ParseDuration; the fractional
contribution, computed there with float64, is modelled by exact natural
division. -/
def parseChunk (s : List Char) : Option (Nat × List Char) :=
  match s with
  | [] => none
  | c0 :: _ =>
    if ¬(c0 = '.' ∨ c0.isDigit) then none
    else
      match goLeadingInt 0 s with
      | none => none
      | some (v, s1) =>
        let pre : Bool := s1.length ≠ s.length
        let fr :=
          match s1 with
          | '.' :: rest =>
            let q := goLeadingFraction 0 1 false rest
            (q.1, q.2.1, q.2.2, (q.2.2.length ≠ rest.length : Bool))
          | _ => (0, 1, s1, false)
        if ¬pre ∧ ¬fr.2.2.2 then none
        else
          let u := fr.2.2.1.takeWhile fun c => ¬(c = '.' ∨ c.isDigit)
          let s3 := fr.2.2.1.dropWhile fun c => ¬(c = '.' ∨ c.isDigit)
          if u.isEmpty then none
          else
            match durUnit (String.mk u) with
            | none => none
            | some unit =>
              if v > 2 ^ 63 / unit then none
              else
                let v2 := v * unit
                let vf := if 0 < fr.1 then v2 + fr.1 * unit / fr.2.1 else v2
                if 0 < fr.1 ∧ vf > 2 ^ 63 then none else some (vf, s3)

/-- Outer loop of Go time.ParseDuration, accumulating group values with the
overall overflow check; the fuel argument bounds the recursion and always
suffices because every group consumes at least one character. -/
def parseLoop : Nat → Nat → List Char → Option Nat
  | _, d, [] => some d
  | 0, _, _ => none
  | fuel + 1, d, s =>
    match parseChunk s with
    | none => none
    | some (v, rest) =>
      let d2 := d + v
      if d2 > 2 ^ 63 then none else parseLoop fuel d2 rest

/-- Go time.ParseDuration, modelled from the standard library (not part of
this repository): optional sign, the special case 0, then one or more value
and unit groups; the result is the signed nanosecond count, none on any parse
error. -/
def ParseDuration (s : String) : Option Int :=
  let l0 := s.data
  let sgn :=
    match l0 with
    | '-' :: rest => (true, rest)
    | '+' :: rest => (false, rest)
    | l => (false, l)
  let l := sgn.2
  if l = ['0'] then some 0
  else if l = [] then none
  else
    match parseLoop (l.length + 1) 0 l with
    | none => none
    | some d =>
      if sgn.1 then some (-(d : Int))
      else if d > 2 ^ 63 - 1 then none
      else some (d : Int)

/-- estimateRounds, part_000 lines 320 to 340. The elapsed wall-clock time of
the trial round is an input of the model (in nanoseconds), since the embedding
has no clock; the source measures it around the one-round debate flow. The
division int(total.Seconds() / elapsed.Seconds()) is a float64 division of the
two nanosecond counts scaled by the same factor, truncated toward zero; it is
modelled as exact truncated integer division of the nanosecond counts. Note
the trial round runs before the duration string is parsed. -/
def estimateRounds (client : Client) (claim : String) (llm : LLMConfig)
    (duration : String) (elapsed : Int) : Except String Int × List TurnCall :=
  match runDebateFlow client claim
      { Rounds := 1, Duration := "", InputFile := "", OutputFile := "" } llm with
  | (Except.error e, st) => (Except.error e, st)
  | (Except.ok _, st) =>
    let elapsed2 := if elapsed ≤ 0 then 1000000 else elapsed
    match ParseDuration duration with
    | none => (Except.error "invalid duration", st)
    | some total =>
      let rounds := Int.tdiv total elapsed2
      (Except.ok (if rounds < 1 then 1 else rounds), st)

/-- Pure mirror of the successful execution of runDebateBody: given the
response function of an always-succeeding client, it computes the rounds
produced and the trace of Turn Executor calls issued, starting from a given
call index. Used only in proofs, via the lemma relating it to runDebateBody. -/
def loopSpec (f : Nat → PortCall → String) (claimEntry : Message)
    (llm : LLMConfig) : Nat → List Message → Nat →
    List DebateRound × List TurnCall
  | 0, _, _ => ([], [])
  | n + 1, history, idx =>
    let hv := buildView claimEntry history
    let c1 : TurnCall :=
      { model := llm.ChallengerModel, system := chalSys llm, history := hv.1 }
    let chal := f idx (portRequest c1)
    let chalEntry : Message := { Role := RoleChallenger, Content := chal }
    let c2 : TurnCall :=
      { model := llm.DefenderModel, system := defSys llm,
        history := hv.1 ++ [chalEntry] }
    let defText := f (idx + 1) (portRequest c2)
    let defEntry : Message := { Role := RoleDefender, Content := defText }
    let rest := loopSpec f claimEntry llm n (hv.2 ++ [chalEntry, defEntry]) (idx + 2)
    ({ Challenger := chal, Defender := defText } :: rest.1, c1 :: c2 :: rest.2)

/-- Relation between a challenger call and the defender call of the same
round, as recorded in a trace: the defender context is the challenger context
with the freshly generated challenger turn appended, and it holds at most
MaxHistory + 2 entries. -/
def defenderStep (f : Nat → PortCall → String) (tr : List TurnCall)
    (k : Nat) : Prop :=
  match tr[2 * k]?, tr[2 * k + 1]? with
  | some cc, some dc =>
    dc.history = cc.history ++
      [{ Role := RoleChallenger, Content := f (2 * k) (portRequest cc) }] ∧
    dc.history.length ≤ MaxHistory + 2
  | _, _ => False

/-- A client that always answers with the text ok. -/
def okClient : Client := fun _ _ => Except.ok "ok"

/-- Response function of okClient. -/
def okF : Nat → PortCall → String := fun _ _ => "ok"

/-- The default LLM configuration of parseFlags, part_000 lines 291 to 296. -/
def llm0 : LLMConfig :=
  { ChallengerModel := "llama3", DefenderModel := "llama3",
    ChalPrompt := "You are the Challenger. Attack ruthlessly:",
    DefPrompt := "You are the Defender. Represent the user:" }

/-- A concrete seed message. -/
def seedMsg : Message := { Role := "user", Content := "claim" }

/-- A concrete non-seed message. -/
def fillerMsg : Message := { Role := "challenger", Content := "x" }

/-- A stored history of 103 entries, the length the loop reaches at the start
of iteration 52: the seed followed by 102 non-seed turns. -/
def hist103 : List Message := seedMsg :: List.replicate 102 fillerMsg

/-- A debate configuration with one round and no duration. -/
def cfg1 : DebateConfig :=
  { Rounds := 1, Duration := "", InputFile := "", OutputFile := "" }

/-- A debate configuration with 51 rounds, enough for the context window to
fill up. -/
def cfg51 : DebateConfig :=
  { Rounds := 51, Duration := "", InputFile := "", OutputFile := "" }

/-- A streaming backend whose chunks assemble to the empty string. -/
def emptyBackend : String → String → String → Except String (List String) :=
  fun _ _ _ => Except.ok ["", ""]

/-- A streaming backend answering with one nonempty chunk. -/
def okBackend : String → String → String → Except String (List String) :=
  fun _ _ _ => Except.ok ["hello"]

end Llater

namespace Llater

theorem join_cons (a : String) (l : List String) :
    String.join (a :: l) = a ++ String.join l := by
  apply String.ext
  simp [String.join_eq, String.data_append]

theorem foldl_append_join {α : Type} (r : α → String) :
    ∀ (l : List α) (acc : String),
      l.foldl (fun a x => a ++ r x) acc = acc ++ String.join (l.map r)
  | [], acc => by simp [String.join]
  | x :: l, acc => by
    simp only [List.foldl_cons, List.map_cons, join_cons]
    rw [foldl_append_join r l (acc ++ r x), String.append_assoc]

theorem trimHistory_length (h : List Message) (m : Nat) :
    (trimHistory h m).length = min h.length m := by
  unfold trimHistory
  split <;> simp <;> omega

theorem debateView_length (ce : Message) (h : List Message) (m : Nat) :
    (debateView ce h m).length = min h.length m := by
  unfold debateView
  rw [List.length_set, trimHistory_length]

theorem buildView_fst_length (ce : Message) (h : List Message) :
    (buildView ce h).1.length = min h.length (MaxHistory + 1) :=
  debateView_length ce h (MaxHistory + 1)

theorem buildView_snd_length (ce : Message) (h : List Message) :
    (buildView ce h).2.length = h.length := by
  unfold buildView
  dsimp only
  split <;> rw [List.length_set]

theorem set_zero_head (a : Message) (l : List Message) (hl : l ≠ []) :
    (l.set 0 a)[0]? = some a := by
  cases l with
  | nil => exact absurd rfl hl
  | cons b t => simp

theorem runDebateBody_eq_loopSpec (client : Client) (f : Nat → PortCall → String)
    (hgen : ∀ n c, client n c = Except.ok (f n c)) (claimEntry : Message)
    (llm : LLMConfig) :
    ∀ (n : Nat) (history : List Message) (rounds : List DebateRound)
      (st : List TurnCall),
      runDebateBody client claimEntry llm n history rounds st =
        (Except.ok (rounds ++ (loopSpec f claimEntry llm n history st.length).1),
         st ++ (loopSpec f claimEntry llm n history st.length).2) := by
  intro n
  induction n with
  | zero =>
    intro history rounds st
    simp [runDebateBody, loopSpec]
  | succ n ih =>
    intro history rounds st
    simp only [runDebateBody, loopSpec, runSingleRound, hgen]
    rw [ih]
    simp [List.length_append, List.append_assoc]

theorem runDebateFlow_eq (client : Client) (f : Nat → PortCall → String)
    (hgen : ∀ n c, client n c = Except.ok (f n c)) (claim : String)
    (config : DebateConfig) (llm : LLMConfig) :
    runDebateFlow client claim config llm =
      (Except.ok
        (loopSpec f { Role := RoleUser, Content := claim } llm
          config.Rounds.toNat [{ Role := RoleUser, Content := claim }] 0).1,
       (loopSpec f { Role := RoleUser, Content := claim } llm
          config.Rounds.toNat [{ Role := RoleUser, Content := claim }] 0).2) := by
  unfold runDebateFlow
  rw [runDebateBody_eq_loopSpec client f hgen]
  simp

theorem loopSpec_rounds_length (f : Nat → PortCall → String) (ce : Message)
    (llm : LLMConfig) :
    ∀ (n : Nat) (history : List Message) (idx : Nat),
      (loopSpec f ce llm n history idx).1.length = n := by
  intro n
  induction n with
  | zero => intro history idx; simp [loopSpec]
  | succ n ih => intro history idx; simp [loopSpec, ih]

theorem loopSpec_trace_length (f : Nat → PortCall → String) (ce : Message)
    (llm : LLMConfig) :
    ∀ (n : Nat) (history : List Message) (idx : Nat),
      (loopSpec f ce llm n history idx).2.length = 2 * n := by
  intro n
  induction n with
  | zero => intro history idx; simp [loopSpec]
  | succ n ih => intro history idx; simp [loopSpec, ih]; ring

theorem loopSpec_chal_len (f : Nat → PortCall → String) (ce : Message)
    (llm : LLMConfig) :
    ∀ (n : Nat) (history : List Message) (idx k : Nat), k < n →
      ((loopSpec f ce llm n history idx).2[2 * k]?).map
          (fun c => c.history.length) =
        some (min (history.length + 2 * k) (MaxHistory + 1)) := by
  intro n
  induction n with
  | zero => intro history idx k hk; omega
  | succ n ih =>
    intro history idx k hk
    cases k with
    | zero =>
      simp [loopSpec, buildView_fst_length]
    | succ k =>
      have h2 : 2 * (k + 1) = 2 * k + 1 + 1 := by ring
      rw [h2]
      simp only [loopSpec]
      rw [List.getElem?_cons_succ, List.getElem?_cons_succ]
      rw [ih _ (idx + 2) k (by omega)]
      congr 1
      rw [List.length_append, buildView_snd_length]
      simp
      omega

theorem loopSpec_def_len (f : Nat → PortCall → String) (ce : Message)
    (llm : LLMConfig) :
    ∀ (n : Nat) (history : List Message) (idx k : Nat), k < n →
      ((loopSpec f ce llm n history idx).2[2 * k + 1]?).map
          (fun c => c.history.length) =
        some (min (history.length + 2 * k) (MaxHistory + 1) + 1) := by
  intro n
  induction n with
  | zero => intro history idx k hk; omega
  | succ n ih =>
    intro history idx k hk
    cases k with
    | zero =>
      simp [loopSpec, buildView_fst_length]
    | succ k =>
      have h2 : 2 * (k + 1) + 1 = 2 * k + 1 + 1 + 1 := by ring
      rw [h2]
      simp only [loopSpec]
      rw [List.getElem?_cons_succ, List.getElem?_cons_succ]
      rw [ih _ (idx + 2) k (by omega)]
      congr 1
      rw [List.length_append, buildView_snd_length]
      simp
      omega

theorem loopSpec_defender_calls (f : Nat → PortCall → String) (ce : Message)
    (llm : LLMConfig) :
    ∀ (n : Nat) (history : List Message) (idx k : Nat), k < n →
      ∃ cc, (loopSpec f ce llm n history idx).2[2 * k]? = some cc ∧
        (loopSpec f ce llm n history idx).2[2 * k + 1]? =
          some { model := llm.DefenderModel, system := defSys llm,
                 history := cc.history ++
                   [{ Role := RoleChallenger,
                      Content := f (idx + 2 * k) (portRequest cc) }] } := by
  intro n
  induction n with
  | zero => intro history idx k hk; omega
  | succ n ih =>
    intro history idx k hk
    cases k with
    | zero =>
      refine ⟨{ model := llm.ChallengerModel, system := chalSys llm,
                history := (buildView ce history).1 }, ?_, ?_⟩ <;>
        simp [loopSpec]
    | succ k =>
      have h2 : 2 * (k + 1) = 2 * k + 1 + 1 := by ring
      rw [h2]
      simp only [loopSpec]
      rw [List.getElem?_cons_succ, List.getElem?_cons_succ,
        List.getElem?_cons_succ, List.getElem?_cons_succ]
      have h4 : ∀ m : Nat, m + (2 * k + 1 + 1) = m + 2 + 2 * k := by
        intro m; ring
      rw [h4 idx]
      exact ih _ (idx + 2) k (by omega)

theorem loopSpec_roles (f : Nat → PortCall → String) (ce : Message)
    (llm : LLMConfig) :
    ∀ (n : Nat) (history : List Message) (idx : Nat),
      (loopSpec f ce llm n history idx).2.map (fun c => (c.model, c.system)) =
        (List.replicate n
          [(llm.ChallengerModel, chalSys llm),
           (llm.DefenderModel, defSys llm)]).flatten := by
  intro n
  induction n with
  | zero => intro history idx; simp [loopSpec]
  | succ n ih =>
    intro history idx
    simp [loopSpec, ih, List.replicate_succ]

theorem estimateRounds_eq (client : Client) (f : Nat → PortCall → String)
    (hgen : ∀ n c, client n c = Except.ok (f n c)) (claim : String)
    (llm : LLMConfig) (duration : String) (elapsed : Int) :
    estimateRounds client claim llm duration elapsed =
      (match ParseDuration duration with
       | none => (Except.error "invalid duration",
           (loopSpec f { Role := RoleUser, Content := claim } llm 1
             [{ Role := RoleUser, Content := claim }] 0).2)
       | some total =>
         (Except.ok
            (if Int.tdiv total (if elapsed ≤ 0 then 1000000 else elapsed) < 1
             then 1
             else Int.tdiv total (if elapsed ≤ 0 then 1000000 else elapsed)),
          (loopSpec f { Role := RoleUser, Content := claim } llm 1
            [{ Role := RoleUser, Content := claim }] 0).2)) := by
  unfold estimateRounds
  rw [runDebateFlow_eq client f hgen]
  rfl

end Llater

namespace Llater

theorem serializeHistory_eq_join (history : List Message) :
    serializeHistory history =
      String.join (history.map fun m => m.Role ++ ": " ++ m.Content ++ "\n") := by
  unfold serializeHistory
  rw [foldl_append_join (fun m : Message => m.Role ++ ": " ++ m.Content ++ "\n")
    history ""]
  exact String.empty_append _

/-- C2: for every context window whose first element is the seed turn and
whose length exceeds maxLen, with maxLen at least 1, the trimmed view built
for a generation call (trim to maxLen entries, then restore the seed at index
0, part_000 lines 212 to 213) contains exactly maxLen turns and its element at
index 0 is the seed turn, so trimming never evicts the seed from the view. -/
theorem c2_trimmed_view_keeps_seed (seed : Message) (history : List Message)
    (maxLen : Nat) (h1 : 1 ≤ maxLen) (h2 : maxLen < history.length)
    (h3 : history[0]? = some seed) :
    (debateView seed history maxLen).length = maxLen ∧
    (debateView seed history maxLen)[0]? = some seed := by
  constructor
  · rw [debateView_length]
    omega
  · unfold debateView
    apply set_zero_head
    intro hnil
    have hlen := trimHistory_length history maxLen
    rw [hnil] at hlen
    simp at hlen
    omega

/-- Witness for c2 at a window of three turns trimmed to two. -/
theorem c2_witness :
    ((debateView seedMsg [seedMsg, fillerMsg, fillerMsg] 2).length = 2 ∧
      (debateView seedMsg [seedMsg, fillerMsg, fillerMsg] 2)[0]? = some seedMsg) :=
  c2_trimmed_view_keeps_seed seedMsg [seedMsg, fillerMsg, fillerMsg] 2
    (by decide) (by decide) (by decide)

/-- C3: the claim states that building the per-iteration window view is a pure
read that leaves the stored history unchanged; the code violates it. On a
stored history of 103 entries (seed followed by 102 non-seed turns) the
element assignment of part_000 line 213 writes through the shared slice
backing array and overwrites the stored element at index 2 with the seed
entry, so the stored sequence after view construction differs from the one
before. -/
theorem c3_view_build_mutates_history :
    (buildView seedMsg hist103).2 =
      seedMsg :: fillerMsg :: seedMsg :: List.replicate 100 fillerMsg ∧
    (buildView seedMsg hist103).2 ≠ hist103 := by
  constructor <;> decide

/-- C7: the Ollama adapter treats an assembled response text that is empty as
a failure: whenever the backend streams chunks that join to the empty string
the adapter returns the error empty response, and a successful return value is
never the empty string. -/
theorem c7_empty_generation_fails
    (backend : String → String → String → Except String (List String)) :
    (∀ model system prompt chunks,
        backend model system prompt = Except.ok chunks →
        String.join chunks = "" →
        GenerateWithChannel backend model system prompt =
          Except.error "empty response") ∧
    (∀ model system prompt s,
        GenerateWithChannel backend model system prompt = Except.ok s →
        s ≠ "") := by
  constructor
  · intro model system prompt chunks hb hj
    unfold GenerateWithChannel
    rw [hb]
    simp [hj]
  · intro model system prompt s hs
    unfold GenerateWithChannel at hs
    cases h : backend model system prompt with
    | error e => rw [h] at hs; exact absurd hs (by simp)
    | ok chunks =>
      rw [h] at hs
      by_cases hj : String.join chunks = ""
      · simp [hj] at hs
      · simp [hj] at hs
        exact hs ▸ hj

/-- Witness for c7: a backend assembling to empty text yields the empty
response error, and a backend assembling to hello yields a nonempty turn. -/
theorem c7_witness :
    GenerateWithChannel emptyBackend "m" "sys" "p" =
      Except.error "empty response" ∧ "hello" ≠ "" := by
  constructor
  · exact (c7_empty_generation_fails emptyBackend).1 "m" "sys" "p" ["", ""]
      rfl (by decide)
  · exact (c7_empty_generation_fails okBackend).2 "m" "sys" "p" "hello" rfl

/-- C8: every Turn Executor invocation passes the role instruction and the
serialized context transcript to the Generation Port as two separate fields:
the request handed to the client carries the instruction in the system field
and exactly the serialized transcript (one line per turn, nothing else) in the
prompt field, and the recorded call keeps them apart as well. -/
theorem c8_instruction_and_transcript_separate (client : Client)
    (st : List TurnCall) (model instr : String) (history : List Message) :
    (runSingleRound client st model instr history).1 =
      client st.length
        { model := model, system := instr,
          prompt := String.join (history.map fun m =>
            m.Role ++ ": " ++ m.Content ++ "\n") } ∧
    (runSingleRound client st model instr history).2 =
      st ++ [{ model := model, system := instr, history := history }] := by
  constructor
  · simp only [runSingleRound, portRequest]
    rw [serializeHistory_eq_join]
  · rfl

/-- C9: the summarizer serializes all rounds into one text that is the
concatenation of one header block per round, indexed in ascending order
starting at 1 and terminated by a blank line, omitting no round (the block
list has exactly one entry per round), and issues exactly one generation call
whose context is the single system message holding that text. -/
theorem c9_summarizer_serialization (client : Client) (st : List TurnCall)
    (debate : List DebateRound) (model : String) :
    summaryText debate =
      String.join (debate.enum.map fun p =>
        "### Round " ++ toString (p.1 + 1) ++ "\nChallenger: " ++
          p.2.Challenger ++ "\nDefender: " ++ p.2.Defender ++ "\n\n") ∧
    (debate.enum.map fun p =>
        "### Round " ++ toString (p.1 + 1) ++ "\nChallenger: " ++
          p.2.Challenger ++ "\nDefender: " ++ p.2.Defender ++ "\n\n").length =
      debate.length ∧
    (summarizeDebate client st debate model).2 =
      st ++ [{ model := model, system := summaryInstruction,
               history := [{ Role := RoleSystem,
                             Content := summaryText debate }] }] := by
  refine ⟨?_, ?_, rfl⟩
  · unfold summaryText
    rw [foldl_append_join (fun p : Nat × DebateRound =>
      "### Round " ++ toString (p.1 + 1) ++ "\nChallenger: " ++
        p.2.Challenger ++ "\nDefender: " ++ p.2.Defender ++ "\n\n")
      debate.enum ""]
    exact String.empty_append _
  · simp

end Llater

namespace Llater

/-- C6: for every configuration with round count N and every client whose
calls all succeed, the debate loop issues exactly 2N Generation Port calls,
strictly alternating challenger and defender instructions beginning with the
challenger, and returns exactly N completed rounds. -/
theorem c6_loop_calls_alternate (client : Client) (f : Nat → PortCall → String)
    (hgen : ∀ n c, client n c = Except.ok (f n c)) (claim : String)
    (config : DebateConfig) (llm : LLMConfig) (N : Nat)
    (hN : config.Rounds = (N : Int)) :
    (runDebateFlow client claim config llm).1.toOption.map List.length =
      some N ∧
    (runDebateFlow client claim config llm).2.length = 2 * N ∧
    (runDebateFlow client claim config llm).2.map
        (fun c => (c.model, c.system)) =
      (List.replicate N
        [(llm.ChallengerModel, chalSys llm),
         (llm.DefenderModel, defSys llm)]).flatten := by
  rw [runDebateFlow_eq client f hgen]
  have ht : config.Rounds.toNat = N := by omega
  rw [ht]
  refine ⟨?_, ?_, ?_⟩
  · simp [Except.toOption, loopSpec_rounds_length]
  · exact loopSpec_trace_length f _ llm N _ 0
  · exact loopSpec_roles f _ llm N _ 0

/-- Witness for c6 at one round with an always succeeding client. -/
theorem c6_witness :
    (runDebateFlow okClient "c" cfg1 llm0).1.toOption.map List.length =
      some 1 ∧
    (runDebateFlow okClient "c" cfg1 llm0).2.length = 2 * 1 ∧
    (runDebateFlow okClient "c" cfg1 llm0).2.map
        (fun c => (c.model, c.system)) =
      (List.replicate 1
        [(llm0.ChallengerModel, chalSys llm0),
         (llm0.DefenderModel, defSys llm0)]).flatten :=
  c6_loop_calls_alternate okClient okF (fun _ _ => rfl) "c" cfg1 llm0 1 rfl

/-- C1 amended: when the configured round count is not positive and no
duration-based estimation runs, runCLI defaults the round count to the largest
64 bit signed integer 9223372036854775807 (source comment: infinity rounds),
and the loop then reaches natural termination after exactly that many
successful rounds; the run is practically unbounded but not literally
non-terminating. -/
theorem c1_default_rounds_loop_terminates (client : Client)
    (f : Nat → PortCall → String) (hgen : ∀ n c, client n c = Except.ok (f n c))
    (claim : String) (llm : LLMConfig) (inputFile outputFile : String)
    (r : Int) (hr : r ≤ 0) :
    defaultRounds r = 9223372036854775807 ∧
    (runDebateFlow client claim
        { Rounds := defaultRounds r, Duration := "", InputFile := inputFile,
          OutputFile := outputFile } llm).1.toOption.map List.length =
      some 9223372036854775807 := by
  have hd : defaultRounds r = 9223372036854775807 := by
    unfold defaultRounds
    simp [hr]
  refine ⟨hd, ?_⟩
  rw [runDebateFlow_eq client f hgen]
  simp only [hd]
  simp [Except.toOption, loopSpec_rounds_length]

/-- Witness for c1 at round count 0 with an always succeeding client. -/
theorem c1_witness :
    defaultRounds 0 = 9223372036854775807 ∧
    (runDebateFlow okClient "c"
        { Rounds := defaultRounds 0, Duration := "", InputFile := "",
          OutputFile := "" } llm0).1.toOption.map List.length =
      some 9223372036854775807 :=
  c1_default_rounds_loop_terminates okClient okF (fun _ _ => rfl) "c" llm0
    "" "" 0 (by decide)

/-- C1 counterexample: the claim states the loop never reaches natural
termination when rounds is 0 and the duration is unset; in fact, with an
always succeeding client, the debate flow returns ok (natural termination of
the for loop) carrying exactly 9223372036854775807 completed rounds. -/
theorem c1_counterexample :
    (runDebateFlow okClient "c"
        { Rounds := defaultRounds 0, Duration := "", InputFile := "",
          OutputFile := "" } llm0).1.toOption.map List.length =
      some 9223372036854775807 := by
  rw [runDebateFlow_eq okClient okF (fun _ _ => rfl)]
  simp [defaultRounds, Except.toOption, loopSpec_rounds_length]

/-- C5 amended: in every round the defender is invoked over the view used for
the challenger call of that round with the just-generated challenger turn
appended (not over a freshly recomputed trimmed view): its context always
contains the current round challenger turn as its last element, and its size
is bounded by MaxHistory + 2 turns, one more than the configured window
capacity of MaxHistory + 1 turns. -/
theorem c5_defender_context_bound (client : Client)
    (f : Nat → PortCall → String) (hgen : ∀ n c, client n c = Except.ok (f n c))
    (claim : String) (config : DebateConfig) (llm : LLMConfig) (N : Nat)
    (hN : config.Rounds = (N : Int)) (k : Nat) (hk : k < N) :
    defenderStep f (runDebateFlow client claim config llm).2 k := by
  rw [runDebateFlow_eq client f hgen]
  have ht : config.Rounds.toNat = N := by omega
  rw [ht]
  obtain ⟨cc, h1, h2⟩ := loopSpec_defender_calls f
    { Role := RoleUser, Content := claim } llm N
    [{ Role := RoleUser, Content := claim }] 0 k hk
  have hlen := loopSpec_chal_len f { Role := RoleUser, Content := claim } llm N
    [{ Role := RoleUser, Content := claim }] 0 k hk
  rw [h1] at hlen
  simp at hlen
  unfold defenderStep
  rw [h1, h2]
  constructor
  · simp
  · simp only [List.length_append, List.length_cons, List.length_nil]
    have : cc.history.length ≤ MaxHistory + 1 := by
      rw [hlen]
      omega
    omega

/-- Witness for c5 at the first round of a one-round run. -/
theorem c5_witness :
    defenderStep okF (runDebateFlow okClient "c" cfg1 llm0).2 0 :=
  c5_defender_context_bound okClient okF (fun _ _ => rfl) "c" cfg1 llm0 1
    rfl 0 (by decide)

/-- C5 counterexample: the claim bounds every defender context by the
configured window capacity of MaxHistory + 1 turns (seed plus 100 most
recent); at round 51 of a 51 round run the defender call (trace index 101)
has a context of MaxHistory + 2 = 102 turns. -/
theorem c5_counterexample :
    ((runDebateFlow okClient "c" cfg51 llm0).2[101]?).map
      (fun c => c.history.length) = some (MaxHistory + 2) := by
  have e : (101 : Nat) = 2 * 50 + 1 := by norm_num
  rw [e, runDebateFlow_eq okClient okF (fun _ _ => rfl)]
  have h := loopSpec_def_len okF { Role := RoleUser, Content := "c" } llm0
    51 [{ Role := RoleUser, Content := "c" }] 0 50 (by norm_num)
  simp only [show cfg51.Rounds.toNat = 51 from rfl]
  rw [h]
  norm_num [MaxHistory]

/-- C4 amended: a malformed wall-clock budget value is fatal, but only after
the trial round: for every duration string that does not parse and every
client whose calls succeed, estimateRounds fails with the invalid duration
error having already issued exactly two Generation Port calls (the one trial
round), not zero. -/
theorem c4_invalid_duration_fails_after_trial_round (client : Client)
    (f : Nat → PortCall → String) (hgen : ∀ n c, client n c = Except.ok (f n c))
    (claim : String) (llm : LLMConfig) (duration : String) (elapsed : Int)
    (hdur : ParseDuration duration = none) :
    (estimateRounds client claim llm duration elapsed).1 =
      Except.error "invalid duration" ∧
    (estimateRounds client claim llm duration elapsed).2.length = 2 := by
  rw [estimateRounds_eq client f hgen claim llm duration elapsed, hdur]
  constructor
  · rfl
  · simp [loopSpec_trace_length]

/-- Witness for c4 at the unparsable duration abc. -/
theorem c4_witness :
    (estimateRounds okClient "c" llm0 "abc" 1).1 =
      Except.error "invalid duration" ∧
    (estimateRounds okClient "c" llm0 "abc" 1).2.length = 2 :=
  c4_invalid_duration_fails_after_trial_round okClient okF (fun _ _ => rfl)
    "c" llm0 "abc" 1 (by decide)

/-- C4 counterexample: the claim states the run fails without a single
Generation Port call having been issued; with the unparsable duration abc the
estimator does fail, but its trace holds two issued generation calls. -/
theorem c4_counterexample :
    (estimateRounds okClient "c" llm0 "abc" 1).1.toOption = none ∧
    (estimateRounds okClient "c" llm0 "abc" 1).2.length = 2 := by
  constructor <;> decide

/-- C10: the round estimator runs exactly one trial round (two generation
calls), discards its content, and for a parsed budget and a positive measured
trial time returns the floor of budget over trial time, clamped to a minimum
of 1; the result depends only on the budget and the elapsed time. -/
theorem c10_estimator_formula (client : Client)
    (f : Nat → PortCall → String) (hgen : ∀ n c, client n c = Except.ok (f n c))
    (claim : String) (llm : LLMConfig) (duration : String) (elapsed : Int)
    (total : Int) (hdur : ParseDuration duration = some total)
    (htot : 0 ≤ total) (hel : 0 < elapsed) :
    (estimateRounds client claim llm duration elapsed).1 =
      Except.ok (max 1 ((total.toNat / elapsed.toNat : Nat) : Int)) ∧
    (estimateRounds client claim llm duration elapsed).2.length = 2 := by
  rw [estimateRounds_eq client f hgen claim llm duration elapsed, hdur]
  have hne : ¬elapsed ≤ 0 := by omega
  constructor
  · obtain ⟨a, rfl⟩ : ∃ a : Nat, total = (a : Int) :=
      ⟨_, (Int.toNat_of_nonneg htot).symm⟩
    obtain ⟨b, rfl⟩ : ∃ b : Nat, elapsed = (b : Int) :=
      ⟨_, (Int.toNat_of_nonneg (le_of_lt hel)).symm⟩
    have htd : Int.tdiv (a : Int) (b : Int) = ((a / b : Nat) : Int) := rfl
    simp only [if_neg hne, htd, Int.toNat_natCast]
    congr 1
    split <;> omega
  · simp [loopSpec_trace_length]

/-- Witness for c10 on the spec scenario: budget 2m, trial round 20 seconds,
estimate 6 rounds. -/
theorem c10_witness :
    (estimateRounds okClient "c" llm0 "2m" 20000000000).1 = Except.ok 6 ∧
    (estimateRounds okClient "c" llm0 "2m" 20000000000).2.length = 2 := by
  have h := c10_estimator_formula okClient okF (fun _ _ => rfl) "c" llm0 "2m"
    20000000000 120000000000 (by decide) (by decide) (by decide)
  refine ⟨?_, h.2⟩
  rw [h.1]
  congr 1

end Llater
